import Mathlib

/-!
Verification of the CV–JD matching core of the talent-sourcing system.

The development shallowly embeds the Python sources:
* `backend/utils/matching_engine.py` (keyword extraction, per-dimension
  scoring, weighted aggregation),
* `backend/utils/text_parser.py` (`extract_jd_text` only; binary document
  parsing is external I/O and enters the model as an oracle),
* `backend/services/matching_service.py` (the orchestrator over an explicit
  record store).

Python `str` values are embedded as `String`/`List Char`, `float` scores as
`ℚ` (exact arithmetic), nullable columns as `Option`.  The external
dependency `fuzzywuzzy.fuzz.partial_ratio` (version 0.18.0, built on
`difflib.SequenceMatcher`) is embedded in full below, including difflib's
autojunk rule; texts are ASCII, so Python's Unicode-aware `\w`, `lower` and
`strip` coincide with the ASCII versions used here.
-/

/-- Python regex word character `\w` (ASCII range). -/
def isWordChar (c : Char) : Bool := c.isAlphanum || c == '_'

/-- Python whitespace as stripped by `str.strip()`. -/
def pyIsSpace (c : Char) : Bool :=
  c == ' ' || c == '\t' || c == '\n' || c == '\r' || c == '\x0b' || c == '\x0c'

/-- Python `str.lower()` on character lists (ASCII). -/
def pyLower (s : List Char) : List Char := s.map Char.toLower

/-- Python `str.lower()` on strings. -/
def pyLowerS (s : String) : String := ⟨pyLower s.data⟩

/-- Right strip: drop trailing whitespace. -/
def pyStripR (l : List Char) : List Char := (l.reverse.dropWhile pyIsSpace).reverse

/-- Python `str.strip()` on character lists. -/
def pyStripL (l : List Char) : List Char := pyStripR (l.dropWhile pyIsSpace)

/-- Python `str.strip()`. -/
def pyStrip (s : String) : String := ⟨pyStripL s.data⟩

/-- Python 3 `round` to an integer: round half to even. -/
def roundHalfEven (q : ℚ) : ℤ :=
  if q - (Rat.floor q : ℚ) < 1/2 then Rat.floor q
  else if 1/2 < q - (Rat.floor q : ℚ) then Rat.floor q + 1
  else if Rat.floor q % 2 = 0 then Rat.floor q
  else Rat.floor q + 1

/-- Python `round(x, 2)`. -/
def round2 (q : ℚ) : ℚ := (roundHalfEven (q * 100) : ℚ) / 100

/-- Python `sep.join(parts)`. -/
def joinSep (sep : String) : List String → String
  | [] => ""
  | [a] => a
  | a :: b :: rest => a ++ sep ++ joinSep sep (b :: rest)

/-! ### difflib.SequenceMatcher / fuzzywuzzy.fuzz.partial_ratio -/

/-- Indices at which character `c` occurs in `b` (difflib's `b2j` entry). -/
def occIdx (b : List Char) (c : Char) : List Nat :=
  (List.range b.length).filter (fun j => b.get? j == some c)

/-- difflib autojunk: for `len(b) >= 200`, characters occurring in more than
one percent of `b` are dropped from `b2j`. -/
def isPopular (b : List Char) (c : Char) : Bool :=
  b.length ≥ 200 && (occIdx b c).length > b.length / 100 + 1

/-- difflib's `b2j` with `isjunk = None`. -/
def b2j (b : List Char) (c : Char) : List Nat :=
  if isPopular b c then [] else occIdx b c

/-- One row `i` of `find_longest_match`'s dynamic program: fold over the
occurrence list of `a[i]` in `b`, building the new `j2len` and updating the
best block. -/
def flmRow (j2len : Nat → Nat) (js : List Nat) (i blo bhi : Nat)
    (best : Nat × Nat × Nat) : (Nat → Nat) × (Nat × Nat × Nat) :=
  js.foldl
    (fun acc j =>
      if j < blo || bhi ≤ j then acc
      else
        let k := (if j = 0 then 0 else j2len (j - 1)) + 1
        let n := fun x => if x = j then k else acc.1 x
        if k > acc.2.2.2 then (n, (i + 1 - k, j + 1 - k, k)) else (n, acc.2))
    ((fun _ => 0), best)

/-- The main loop of `find_longest_match` over rows `alo ≤ i < ahi`. -/
def flmCore (a : List Char) (bj : Char → List Nat) (alo ahi blo bhi : Nat) :
    Nat × Nat × Nat :=
  ((List.range' alo (ahi - alo)).foldl
    (fun (st : (Nat → Nat) × (Nat × Nat × Nat)) i =>
      flmRow st.1 (bj (a.getD i ' ')) i blo bhi st.2)
    ((fun _ => 0), (alo, blo, 0))).2

/-- Leftward extension of the best block (`isjunk = None`, so the junk variant
of this loop is a no-op). -/
def extLeft (a b : List Char) (alo blo : Nat) : Nat → Nat × Nat × Nat → Nat × Nat × Nat
  | 0, st => st
  | fuel + 1, (bi, bj', bs) =>
    if alo < bi && blo < bj' &&
        (match a.get? (bi - 1), b.get? (bj' - 1) with
         | some x, some y => x == y
         | _, _ => false) then
      extLeft a b alo blo fuel (bi - 1, bj' - 1, bs + 1)
    else (bi, bj', bs)

/-- Rightward extension of the best block. -/
def extRight (a b : List Char) (ahi bhi : Nat) : Nat → Nat × Nat × Nat → Nat × Nat × Nat
  | 0, st => st
  | fuel + 1, (bi, bj', bs) =>
    if bi + bs < ahi && bj' + bs < bhi &&
        (match a.get? (bi + bs), b.get? (bj' + bs) with
         | some x, some y => x == y
         | _, _ => false) then
      extRight a b ahi bhi fuel (bi, bj', bs + 1)
    else (bi, bj', bs)

/-- difflib `find_longest_match` on the ranges `[alo, ahi) × [blo, bhi)`. -/
def findLongestMatch (a b : List Char) (alo ahi blo bhi : Nat) : Nat × Nat × Nat :=
  let st := flmCore a (b2j b) alo ahi blo bhi
  let st := extLeft a b alo blo st.1 st
  extRight a b ahi bhi ahi st

/-- Recursive block collection of `get_matching_blocks`; emitting in-order
yields exactly the sorted list difflib produces. -/
def mbAux (a b : List Char) : Nat → Nat → Nat → Nat → Nat → List (Nat × Nat × Nat)
  | 0, _, _, _, _ => []
  | fuel + 1, alo, ahi, blo, bhi =>
    let t := findLongestMatch a b alo ahi blo bhi
    if t.2.2 = 0 then []
    else
      (if alo < t.1 && blo < t.2.1 then mbAux a b fuel alo t.1 blo t.2.1 else []) ++
      t ::
      (if t.1 + t.2.2 < ahi && t.2.1 + t.2.2 < bhi then
        mbAux a b fuel (t.1 + t.2.2) ahi (t.2.1 + t.2.2) bhi else [])

/-- Collapse adjacent blocks, as in the tail of `get_matching_blocks`. -/
def collapse : List (Nat × Nat × Nat) → Nat × Nat × Nat → List (Nat × Nat × Nat)
  | [], acc => if acc.2.2 ≠ 0 then [acc] else []
  | t :: rest, acc =>
    if acc.1 + acc.2.2 = t.1 && acc.2.1 + acc.2.2 = t.2.1 then
      collapse rest (acc.1, acc.2.1, acc.2.2 + t.2.2)
    else if acc.2.2 ≠ 0 then (acc.1, acc.2.1, acc.2.2) :: collapse rest t
    else collapse rest t

/-- difflib `get_matching_blocks`, terminator block included. -/
def matchingBlocks (a b : List Char) : List (Nat × Nat × Nat) :=
  collapse (mbAux a b (a.length + b.length + 1) 0 a.length 0 b.length) (0, 0, 0)
    ++ [(a.length, b.length, 0)]

/-- difflib `SequenceMatcher.ratio()` as an exact rational in `[0, 1]`. -/
def seqScore (a b : List Char) : ℚ :=
  let m := (matchingBlocks a b).foldl (fun s bl => s + bl.2.2) (0 : Nat)
  if a.length + b.length = 0 then 1
  else 2 * (m : ℚ) / ((a.length + b.length : Nat) : ℚ)

/-- fuzzywuzzy 0.18.0 `fuzz.partial_ratio`, decorators
(`check_for_none`, `check_for_equivalence`, `check_empty_string`) included. -/
def fuzzPartial (s1 s2 : List Char) : ℤ :=
  if s1 == s2 then 100
  else if s1.isEmpty || s2.isEmpty then 0
  else
    let p := if s1.length ≤ s2.length then (s1, s2) else (s2, s1)
    let blocks := matchingBlocks p.1 p.2
    let scores := blocks.map (fun bl =>
      seqScore p.1 ((p.2.drop (bl.2.1 - bl.1)).take p.1.length))
    if scores.any (fun r => (199 : ℚ)/200 < r) then 100
    else roundHalfEven (100 * scores.foldl max 0)


/-! ### MatchingEngine: vocabularies and keyword extraction -/

/-- Vocabulary `MatchingEngine.HARD_SKILLS_KEYWORDS`. -/
def HARD_SKILLS_KEYWORDS : List String :=
  ["python", "java", "javascript", "react", "angular", "vue", "node.js", "nodejs",
   "express", "django", "flask", "fastapi", "spring", "hibernate",
   "sql", "mysql", "postgresql", "mongodb", "redis", "elasticsearch",
   "aws", "azure", "gcp", "docker", "kubernetes", "jenkins", "git",
   "html", "css", "bootstrap", "tailwind", "sass", "less",
   "machine learning", "ai", "data science", "pandas", "numpy", "tensorflow",
   "pytorch", "scikit-learn", "opencv", "nlp", "deep learning",
   "microservices", "rest api", "graphql", "websockets", "grpc"]

/-- Vocabulary `MatchingEngine.SOFT_SKILLS_KEYWORDS`. -/
def SOFT_SKILLS_KEYWORDS : List String :=
  ["communication", "leadership", "teamwork", "problem solving", "analytical",
   "creative", "adaptable", "time management", "project management",
   "collaboration", "mentoring", "presentation", "negotiation",
   "critical thinking", "decision making", "conflict resolution"]

/-- Vocabulary `MatchingEngine.CERTIFICATION_KEYWORDS`. -/
def CERTIFICATION_KEYWORDS : List String :=
  ["aws certified", "azure certified", "google cloud", "gcp certified",
   "pmp", "scrum master", "agile", "cissp", "ceh", "comptia",
   "oracle certified", "microsoft certified", "cisco", "ccna", "ccnp",
   "itil", "prince2", "six sigma", "lean"]

/-- Vocabulary `MatchingEngine.TIME_ZONE_KEYWORDS`. -/
def TIME_ZONE_KEYWORDS : List String :=
  ["ist", "pst", "est", "cst", "mst", "utc", "gmt", "cet", "jst",
   "india standard time", "pacific standard time", "eastern standard time",
   "central standard time", "mountain standard time", "coordinated universal time"]

/-- Vocabulary `MatchingEngine.CONTRACT_DURATION_KEYWORDS`. -/
def CONTRACT_DURATION_KEYWORDS : List String :=
  ["permanent", "contract", "temporary", "full-time", "part-time",
   "freelance", "consultant", "3 months", "6 months", "12 months",
   "1 year", "2 years", "long term", "short term"]

/-- Whether position `p` of `t` holds a word character (out of range counts
as a non-word position, as at the ends of a Python regex subject). -/
def wordAt (t : List Char) (p : Nat) : Bool :=
  match t.get? p with
  | some c => isWordChar c
  | none => false

/-- Python regex `\b`: a word boundary sits at position `p` iff exactly one
side of `p` holds a word character. -/
def boundaryAt (t : List Char) (p : Nat) : Bool :=
  (if p = 0 then false else wordAt t (p - 1)) != wordAt t p

/-- The characters of `k` occur literally in `t` starting at position `i`
(`re.escape` makes every pattern character literal). -/
def matchesAt (t k : List Char) (i : Nat) : Bool :=
  (t.drop i).take k.length == k

/-- Semantics of `re.search(r'\b' + re.escape(k) + r'\b', t)`: some position
of `t` starts a literal occurrence of `k` enclosed in word boundaries. -/
def hasWordMatch (t k : List Char) : Bool :=
  (List.range (t.length + 1)).any
    (fun i => boundaryAt t i && matchesAt t k i && boundaryAt t (i + k.length))

/-- Embedding of `MatchingEngine.extract_keywords_from_text`. -/
def extract_keywords_from_text (text : String) (keyword_list : List String) :
    List String :=
  if text == "" then []
  else
    keyword_list.filter (fun kw => hasWordMatch (pyLower text.data) (pyLower kw.data))

/-- The per-keyword acceptance test of `calculate_field_score`: exact
case-insensitive membership among the CV keywords, else fuzzy partial ratio
against the CV text at threshold 80. -/
def keywordHit (cv_keywords : List String) (cv_text : String) (k : String) : Bool :=
  (cv_keywords.map pyLowerS).contains (pyLowerS k)
    || decide (80 ≤ fuzzPartial (pyLower k.data) (pyLower cv_text.data))

/-- Embedding of `MatchingEngine.calculate_field_score`.  Returns the 0–100 score and the
missing keywords.  (`jd_text` is accepted and unused, as in the source.) -/
def calculate_field_score (cv_keywords jd_keywords : List String)
    (cv_text _jd_text : String) : ℚ × List String :=
  if jd_keywords.isEmpty then (100, [])
  else if cv_keywords.isEmpty && cv_text == "" then (0, jd_keywords)
  else
    let p := jd_keywords.partition (keywordHit cv_keywords cv_text)
    (((p.1.length : ℚ) / (jd_keywords.length : ℚ)) * 100, p.2)


/-! ### MatchingEngine: aggregation -/

/-- The five scoring dimensions, in `FIELD_WEIGHTS` insertion order. -/
inductive Dim where
  | hard_skills | soft_skills | certifications | time_zone | contract_duration
deriving DecidableEq

/-- The dimensions in the dict iteration order of `FIELD_WEIGHTS`. -/
def dims : List Dim :=
  [.hard_skills, .soft_skills, .certifications, .time_zone, .contract_duration]

/-- Weights table `MatchingEngine.FIELD_WEIGHTS`. -/
def FIELD_WEIGHTS : Dim → ℚ
  | .hard_skills => 40/100
  | .soft_skills => 20/100
  | .certifications => 20/100
  | .time_zone => 10/100
  | .contract_duration => 10/100

/-- Python `field.replace('_', ' ').title()` for each dimension name. -/
def dimTitle : Dim → String
  | .hard_skills => "Hard Skills"
  | .soft_skills => "Soft Skills"
  | .certifications => "Certifications"
  | .time_zone => "Time Zone"
  | .contract_duration => "Contract Duration"

/-- The dict returned by `match_candidate_to_job`. -/
structure MatchResult where
  match_score : ℚ
  status : String
  mismatch_summary : String
  field_scores : Dim → ℚ
  mismatches : Dim → List String

/-- The weighted-sum loop over `FIELD_WEIGHTS.items()`. -/
def overallScore (scores : Dim → ℚ) : ℚ :=
  dims.foldl (fun s d => s + scores d * FIELD_WEIGHTS d) 0

/-- The fixed fallback sentence for rejections with no individually weak
dimension. -/
def fallbackSummary : String :=
  "Overall score below threshold despite partial matches"

/-- A dimension that drives the mismatch summary: some keywords are missing
and the dimension scored below 70. -/
def weakDim (scores : Dim → ℚ) (mism : Dim → List String) (d : Dim) : Bool :=
  !(mism d).isEmpty && decide (scores d < 70)

/-- Lines 249–277 of `match_candidate_to_job`: weighted overall score, status
threshold, mismatch summary synthesis, and the result dict. -/
def aggregate (scores : Dim → ℚ) (mism : Dim → List String) : MatchResult :=
  let overall := overallScore scores
  let status := if 80 ≤ overall then "Shortlisted" else "Rejected"
  let summary :=
    if overall < 80 then
      let parts := (dims.filter (weakDim scores mism)).map
        (fun d => dimTitle d ++ ": Missing " ++ joinSep ", " (mism d))
      if parts.isEmpty then fallbackSummary else joinSep "; " parts
    else ""
  ⟨round2 overall, status, summary, scores, mism⟩

/-! ### Data model -/

/-- The matching-relevant columns of the `candidates` table (`models.py`).
Nullable columns are `Option`s; `submission_date` stands in for the
timestamp columns. -/
structure Candidate where
  id : Nat
  job_id : Nat
  vendor_id : Nat
  name : String
  hard_skills : Option String
  soft_skills : Option String
  certifications : Option String
  time_zone_alignment : Option String
  contract_duration_willingness : Option String
  experience : Option Int
  cv_file_path : Option String
  submission_date : Nat
  match_score : Option ℚ
  status : Option String
  mismatch_summary : Option String
deriving DecidableEq

/-- The columns of the `jobs` table used by the matching core. -/
structure Job where
  id : Nat
  title : String
  description : String
  time_zone : String
  budget_range : String
  contract_duration : String
deriving DecidableEq

/-- Embedding of `TextParser.extract_jd_text`: concatenate the labelled job fields that
are present (Python truthiness: the empty string is skipped), then strip. -/
def extract_jd_text (j : Job) : String :=
  pyStrip
    ((if j.title ≠ "" then "Title: " ++ j.title ++ "\n" else "")
      ++ (if j.description ≠ "" then "Description: " ++ j.description ++ "\n" else "")
      ++ (if j.time_zone ≠ "" then "Time Zone: " ++ j.time_zone ++ "\n" else "")
      ++ (if j.budget_range ≠ "" then "Budget Range: " ++ j.budget_range ++ "\n" else "")
      ++ (if j.contract_duration ≠ "" then
            "Contract Duration: " ++ j.contract_duration ++ "\n" else ""))

/-- Python `x or ''` on a nullable string column. -/
def pyOr (o : Option String) : String := o.getD ""

/-- The CV-side keyword extraction for one dimension:
`extract_keywords_from_text(f"{field or ''} {cv_text}", vocab)`. -/
def cvKeywords (field : Option String) (cv_text : String) (vocab : List String) :
    List String :=
  extract_keywords_from_text (pyOr field ++ " " ++ cv_text) vocab

/-- Embedding of `MatchingEngine.match_candidate_to_job`. -/
def match_candidate_to_job (c : Candidate) (j : Job) (cv_text jd_text : String) :
    MatchResult :=
  let hs := calculate_field_score
    (cvKeywords c.hard_skills cv_text HARD_SKILLS_KEYWORDS)
    (extract_keywords_from_text jd_text HARD_SKILLS_KEYWORDS) cv_text jd_text
  let ss := calculate_field_score
    (cvKeywords c.soft_skills cv_text SOFT_SKILLS_KEYWORDS)
    (extract_keywords_from_text jd_text SOFT_SKILLS_KEYWORDS) cv_text jd_text
  let ct := calculate_field_score
    (cvKeywords c.certifications cv_text CERTIFICATION_KEYWORDS)
    (extract_keywords_from_text jd_text CERTIFICATION_KEYWORDS) cv_text jd_text
  let tz := calculate_field_score
    (cvKeywords c.time_zone_alignment cv_text TIME_ZONE_KEYWORDS)
    (extract_keywords_from_text (j.time_zone ++ " " ++ jd_text) TIME_ZONE_KEYWORDS)
    cv_text jd_text
  let cd := calculate_field_score
    (cvKeywords c.contract_duration_willingness cv_text CONTRACT_DURATION_KEYWORDS)
    (extract_keywords_from_text (j.contract_duration ++ " " ++ jd_text)
      CONTRACT_DURATION_KEYWORDS)
    cv_text jd_text
  let scores : Dim → ℚ := fun d => match d with
    | .hard_skills => hs.1 | .soft_skills => ss.1 | .certifications => ct.1
    | .time_zone => tz.1 | .contract_duration => cd.1
  let mism : Dim → List String := fun d => match d with
    | .hard_skills => hs.2 | .soft_skills => ss.2 | .certifications => ct.2
    | .time_zone => tz.2 | .contract_duration => cd.2
  aggregate scores mism

/-! ### MatchingService: the orchestrator over an explicit record store -/

/-- The record store visible to the matching service. -/
structure DB where
  jobs : List Job
  candidates : List Candidate
deriving DecidableEq

/-- Lookup `select(Candidate).where(Candidate.id == cid)` + `scalar_one_or_none()`
(ids are unique in the store). -/
def findCand (db : DB) (cid : Nat) : Option Candidate :=
  db.candidates.find? (fun c => c.id == cid)

/-- Lookup `select(Job).where(Job.id == jid)` + `scalar_one_or_none()`. -/
def findJob (db : DB) (jid : Nat) : Option Job :=
  db.jobs.find? (fun j => j.id == jid)

/-- The three matching fields written back by the service. -/
def updateMatchFields (c : Candidate) (sc : ℚ) (st sm : String) : Candidate :=
  { c with match_score := some sc, status := some st, mismatch_summary := some sm }

/-- Replace the candidate row with the given id. -/
def dbUpdateCand (db : DB) (cid : Nat) (f : Candidate → Candidate) : DB :=
  { db with candidates := db.candidates.map (fun c => if c.id == cid then f c else c) }

/-- Outcome dict of `process_candidate_match` (`mismatches` is computed but
not echoed by the service). -/
inductive RunResult where
  | ok (candidate_id : Nat) (candidate_name job_title : String)
      (match_score : ℚ) (status mismatch_summary : String)
      (field_scores : Dim → ℚ) : RunResult
  | err (error : String) : RunResult

/-- The `success` flag of a run outcome. -/
def RunResult.success : RunResult → Bool
  | .ok .. => true
  | .err _ => false

/-- The CV text used by the service: `TextParser.extract_text_from_cv` is
invoked only when a document reference exists; the extractor itself is
external I/O (network download plus binary parsing) and enters the model as
the oracle `extractCv` — it already returns `""` on any internal failure. -/
def serviceCvText (extractCv : String → String) (c : Candidate) : String :=
  match c.cv_file_path with
  | none => ""
  | some p => if p == "" then "" else extractCv p

/-- The engine invocation performed by the service for a candidate and its
job: CV text from the document oracle (empty when no document is attached),
JD text from `extract_jd_text`. -/
def serviceMatch (extractCv : String → String) (c : Candidate) (j : Job) : MatchResult :=
  match_candidate_to_job c j (serviceCvText extractCv c) (extract_jd_text j)

/-- Embedding of `MatchingService.process_candidate_match`.  Here `commitOk` is the
data-access layer's verdict on the `db.commit()` for a given candidate id —
when the commit raises, the `except` branch rolls the session back, leaving
the store exactly as before the run. -/
def process_candidate_match (extractCv : String → String) (commitOk : Nat → Bool)
    (db : DB) (cid : Nat) : DB × RunResult :=
  match findCand db cid with
  | none => (db, .err ("Candidate with ID " ++ toString cid ++ " not found"))
  | some cand =>
    match findJob db cand.job_id with
    | none => (db, .err ("Job with ID " ++ toString cand.job_id ++ " not found"))
    | some job =>
      let r := serviceMatch extractCv cand job
      if commitOk cid then
        (dbUpdateCand db cid
            (fun c => updateMatchFields c r.match_score r.status r.mismatch_summary),
         .ok cid cand.name job.title r.match_score r.status r.mismatch_summary
           r.field_scores)
      else
        (db, .err "Error processing match: commit failed")

/-- Outcome dict of `process_job_matches`. -/
inductive JobRun where
  | ok (job_id : Nat) (job_title : String)
      (total_candidates successful_matches failed_matches : Nat)
      (results : List RunResult) : JobRun
  | empty (message : String) (results : List RunResult) : JobRun
  | err (error : String) : JobRun

/-- The `success` flag of a batch outcome (true in the no-candidate case). -/
def JobRun.success : JobRun → Bool
  | .ok .. => true
  | .empty .. => true
  | .err _ => false

/-- The `results` roster of a batch outcome. -/
def JobRun.results : JobRun → List RunResult
  | .ok _ _ _ _ _ rs => rs
  | .empty _ rs => rs
  | .err _ => []

/-- The candidate-processing loop of `process_job_matches`: thread the store
through the per-candidate runs, collecting one result per candidate. -/
def runAll (extractCv : String → String) (commitOk : Nat → Bool)
    (db : DB) : List Candidate → DB × List RunResult
  | [] => (db, [])
  | c :: rest =>
    let p := process_candidate_match extractCv commitOk db c.id
    let q := runAll extractCv commitOk p.1 rest
    (q.1, p.2 :: q.2)

/-- Embedding of `MatchingService.process_job_matches`. -/
def process_job_matches (extractCv : String → String) (commitOk : Nat → Bool)
    (db : DB) (jid : Nat) : DB × JobRun :=
  match findJob db jid with
  | none => (db, .err ("Job with ID " ++ toString jid ++ " not found"))
  | some job =>
    let cands := db.candidates.filter (fun c => c.job_id == jid)
    if cands.isEmpty then
      (db, .empty ("No candidates found for job " ++ toString jid) [])
    else
      let p := runAll extractCv commitOk db cands
      (p.1, .ok jid job.title cands.length
        (p.2.countP RunResult.success)
        (p.2.countP (fun r => !r.success)) p.2)

/-! ### Concrete instances used by counterexamples and witnesses -/

/-- A job whose only content is empty fields (JD text is empty, so every
dimension has no requirement). -/
def jobEmpty : Job := ⟨8, "", "", "", "", ""⟩

/-- A candidate with no declared skills and no résumé, attached to
`jobEmpty`. -/
def candEmpty : Candidate :=
  ⟨7, 8, 1, "W", none, none, none, none, none, none, none, 0, none, none, none⟩

/-- Store holding `jobEmpty` and `candEmpty`. -/
def dbEmpty : DB := ⟨[jobEmpty], [candEmpty]⟩

/-- A candidate whose `job_id` resolves to no job (orphaned foreign key). -/
def candOrphan : Candidate :=
  ⟨5, 9, 1, "O", none, none, none, none, none, none, none, 0, none, none, none⟩

/-- Store with the orphaned candidate and no jobs. -/
def dbOrphan : DB := ⟨[], [candOrphan]⟩

/-- Two blank candidates attached to `jobEmpty` (id 8) for the batch run. -/
def candB1 : Candidate :=
  ⟨21, 8, 1, "B1", none, none, none, none, none, none, none, 0, none, none, none⟩

def candB2 : Candidate :=
  ⟨22, 8, 1, "B2", none, none, none, none, none, none, none, 0, none, none, none⟩

/-- Store for the batch scenario. -/
def dbBatch : DB := ⟨[jobEmpty], [candB1, candB2]⟩

/-- Job requiring four keywords on each of the five dimensions. -/
def jobQuarter : Job :=
  ⟨2, "", "ai git css vue creative adaptable mentoring teamwork pmp ceh ccna itil",
   "ist pst est utc", "", "permanent temporary freelance"⟩

/-- Candidate matching exactly three of the four requirements on every
dimension of `jobQuarter`: every dimension scores 75. -/
def candQuarter : Candidate :=
  ⟨1, 2, 1, "Q", some "ai git css", some "creative adaptable mentoring",
   some "pmp ceh ccna", some "ist pst est", some "permanent contract temporary",
   some 3, none, 0, none, none, none⟩

/-- Store for the all-dimensions-at-75 scenario. -/
def dbQuarter : DB := ⟨[jobQuarter], [candQuarter]⟩

/-- Job whose requirement counts per dimension are 7/3/0/10/11. -/
def jobWindow : Job :=
  ⟨4, "", "python java react sql aws docker git communication leadership teamwork",
   "ist pst est cst mst utc gmt cet jst india standard time", "",
   "permanent temporary full-time part-time freelance consultant 3 months 6 months 1 year long term"⟩

/-- Candidate matching 5/7, 2/3, 0/0, 9/10 and 10/11 of `jobWindow`'s
requirements: the weighted overall is 18479/231 ∈ (79.995, 80). -/
def candWindow : Candidate :=
  ⟨3, 4, 1, "N", some "python java react sql aws", some "communication leadership",
   none, some "ist pst est cst mst utc gmt cet jst",
   some "permanent contract temporary full-time part-time freelance consultant 3 months 6 months 1 year",
   none, none, 0, none, none, none⟩

/-- Store for the rounding-window scenario. -/
def dbWindow : DB := ⟨[jobWindow], [candWindow]⟩

/-- Job asking for the hard skill `python`. -/
def jobPy : Job := ⟨3, "", "python", "", "", ""⟩

/-- Candidate declaring the hard skill text `pythonic` (not a whole-word
occurrence of any vocabulary term), attached to `jobPy`. -/
def candPy : Candidate :=
  ⟨2, 3, 1, "P", some "pythonic", none, none, none, none, none, none, 0,
   none, none, none⟩

/-! ### Theorems -/

/-- C1: for every five-dimension score map with scores in [0,100], the
aggregator shortlists exactly when the weighted overall reaches 80 (80.0
itself is Shortlisted, anything below — e.g. 79.999 — is Rejected), the
overall is the weighted sum with fixed weights 0.40/0.20/0.20/0.10/0.10
summing to 1, stays within [0,100], and the reported `match_score` is the
overall rounded to two decimal places. -/
theorem C1_weighted_aggregation (scores : Dim → ℚ) (mism : Dim → List String)
    (hb : ∀ d, 0 ≤ scores d ∧ scores d ≤ 100) :
    ((aggregate scores mism).status = "Shortlisted" ↔ 80 ≤ overallScore scores)
    ∧ ((aggregate scores mism).status = "Rejected" ↔ overallScore scores < 80)
    ∧ overallScore scores
        = scores .hard_skills * FIELD_WEIGHTS .hard_skills
          + scores .soft_skills * FIELD_WEIGHTS .soft_skills
          + scores .certifications * FIELD_WEIGHTS .certifications
          + scores .time_zone * FIELD_WEIGHTS .time_zone
          + scores .contract_duration * FIELD_WEIGHTS .contract_duration
    ∧ FIELD_WEIGHTS .hard_skills = 40/100 ∧ FIELD_WEIGHTS .soft_skills = 20/100
    ∧ FIELD_WEIGHTS .certifications = 20/100 ∧ FIELD_WEIGHTS .time_zone = 10/100
    ∧ FIELD_WEIGHTS .contract_duration = 10/100
    ∧ (dims.map FIELD_WEIGHTS).sum = 1
    ∧ 0 ≤ overallScore scores ∧ overallScore scores ≤ 100
    ∧ (aggregate scores mism).match_score = round2 (overallScore scores) := by
  have hexp : overallScore scores
      = scores .hard_skills * FIELD_WEIGHTS .hard_skills
        + scores .soft_skills * FIELD_WEIGHTS .soft_skills
        + scores .certifications * FIELD_WEIGHTS .certifications
        + scores .time_zone * FIELD_WEIGHTS .time_zone
        + scores .contract_duration * FIELD_WEIGHTS .contract_duration := by
    simp only [overallScore, dims, List.foldl]
    ring
  refine ⟨?_, ?_, hexp, rfl, rfl, rfl, rfl, rfl, by norm_num [dims, FIELD_WEIGHTS], ?_, ?_, rfl⟩
  · simp only [aggregate]
    split_ifs with h
    · simp [h]
    · simp only [h, iff_false]
      decide
  · simp only [aggregate]
    split_ifs with h
    · simp only [not_lt.mpr h, iff_false]
      intro hc
      exact absurd hc (by decide)
    · simp [lt_of_not_le h]
  · have h1 := hb .hard_skills
    have h2 := hb .soft_skills
    have h3 := hb .certifications
    have h4 := hb .time_zone
    have h5 := hb .contract_duration
    rw [hexp]
    simp only [FIELD_WEIGHTS]
    nlinarith [h1.1, h2.1, h3.1, h4.1, h5.1]
  · have h1 := hb .hard_skills
    have h2 := hb .soft_skills
    have h3 := hb .certifications
    have h4 := hb .time_zone
    have h5 := hb .contract_duration
    rw [hexp]
    simp only [FIELD_WEIGHTS]
    nlinarith [h1.2, h2.2, h3.2, h4.2, h5.2]

/-- Witness for C1: constant scores 80 satisfy the bounds hypothesis and the
aggregator shortlists at the exact threshold. -/
theorem C1_witness :
    (aggregate (fun _ => (80 : ℚ)) (fun _ => [])).status = "Shortlisted" := by
  have h := C1_weighted_aggregation (fun _ => (80 : ℚ)) (fun _ => [])
    (fun d => by norm_num)
  refine h.1.mpr ?_
  norm_num [overallScore, dims, FIELD_WEIGHTS]

/-- C5: the Field Scorer returns (100, []) when the job requires nothing;
(0, all requirements) when the candidate offers neither keywords nor text;
and otherwise the score `100·|matched|/|jobKeywords|` where matched and
missing partition the job keywords under the exact-then-fuzzy policy. -/
theorem C5_field_scorer_cases (cvK jdK : List String) (cvT jdT : String) :
    (jdK = [] → calculate_field_score cvK jdK cvT jdT = (100, []))
    ∧ (jdK ≠ [] → cvK = [] → cvT = "" →
        calculate_field_score cvK jdK cvT jdT = (0, jdK))
    ∧ (jdK ≠ [] → (cvK ≠ [] ∨ cvT ≠ "") →
        calculate_field_score cvK jdK cvT jdT
          = ((((jdK.filter (keywordHit cvK cvT)).length : ℚ) / (jdK.length : ℚ)) * 100,
              jdK.filter (fun k => !(keywordHit cvK cvT k)))
        ∧ (jdK.filter (keywordHit cvK cvT)).length
            + (jdK.filter (fun k => !(keywordHit cvK cvT k))).length = jdK.length) := by
  refine ⟨?_, ?_, ?_⟩
  · intro h
    subst h
    rfl
  · intro h1 h2 h3
    subst h2
    subst h3
    simp [calculate_field_score, h1]
  · intro h1 h2
    have hjd : jdK.isEmpty = false := by
      simpa [List.isEmpty_iff] using h1
    have hcv : (cvK.isEmpty && cvT == "") = false := by
      rcases h2 with h | h
      · simp [List.isEmpty_iff, h]
      · simp [h]
    constructor
    · simp only [calculate_field_score, hjd, hcv, Bool.false_eq_true, if_false,
        List.partition_eq_filter_filter]
      rfl
    · have := jdK.length_eq_length_filter_add (keywordHit cvK cvT)
      omega

unseal Rat.add Rat.mul Rat.inv Rat.sub in
/-- Witness for C5, third case: one exact hit, one fuzzy miss. -/
theorem C5_witness :
    calculate_field_score ["python"] ["python", "docker"] "x" "" = (50, ["docker"]) := by
  have h := (C5_field_scorer_cases ["python"] ["python", "docker"] "x" "").2.2
    (by decide) (Or.inl (by decide))
  rw [h.1]
  decide

/-- C7: the single-candidate run reports a structured failure (it cannot
raise in this total model) when the candidate id or its job id does not
resolve, and any failed run leaves the store — in particular the
candidate's three matching fields — exactly as before the run. -/
theorem C7_failure_isolation (ex : String → String) (ok : Nat → Bool)
    (db : DB) (cid : Nat) :
    (findCand db cid = none →
      process_candidate_match ex ok db cid
        = (db, .err ("Candidate with ID " ++ toString cid ++ " not found")))
    ∧ (∀ c, findCand db cid = some c → findJob db c.job_id = none →
        process_candidate_match ex ok db cid
          = (db, .err ("Job with ID " ++ toString c.job_id ++ " not found")))
    ∧ ((process_candidate_match ex ok db cid).2.success = false →
        (process_candidate_match ex ok db cid).1 = db) := by
  refine ⟨?_, ?_, ?_⟩
  · intro h
    simp [process_candidate_match, h]
  · intro c h1 h2
    simp [process_candidate_match, h1, h2]
  · intro h
    rcases hc : findCand db cid with _ | cand
    · simp [process_candidate_match, hc]
    rcases hj : findJob db cand.job_id with _ | job
    · simp [process_candidate_match, hc, hj]
    rcases hok : ok cid
    · simp [process_candidate_match, hc, hj, hok]
    · exfalso
      rw [process_candidate_match] at h
      simp [hc, hj, hok, RunResult.success] at h

/-- Witness for C7: a candidate whose job id is orphaned yields a structured
failure and an unchanged store. -/
theorem C7_witness :
    (process_candidate_match (fun _ => "") (fun _ => true) dbOrphan 5).2.success = false
    ∧ (process_candidate_match (fun _ => "") (fun _ => true) dbOrphan 5).1 = dbOrphan := by
  have h := (C7_failure_isolation (fun _ => "") (fun _ => true) dbOrphan 5).2.1
    candOrphan (by decide) (by decide)
  rw [h]
  exact ⟨rfl, rfl⟩

/-- C10: the match outcome depends only on the candidate's five declared
matching fields and the supplied résumé text, and on the job's time zone,
contract duration and the supplied job text — candidates differing only in
name, vendor, experience, submission date (or any other column) produce
identical outcomes. -/
theorem C10_noninterference (c₁ c₂ : Candidate) (j₁ j₂ : Job) (cv jd : String)
    (h1 : c₁.hard_skills = c₂.hard_skills)
    (h2 : c₁.soft_skills = c₂.soft_skills)
    (h3 : c₁.certifications = c₂.certifications)
    (h4 : c₁.time_zone_alignment = c₂.time_zone_alignment)
    (h5 : c₁.contract_duration_willingness = c₂.contract_duration_willingness)
    (hj1 : j₁.time_zone = j₂.time_zone)
    (hj2 : j₁.contract_duration = j₂.contract_duration) :
    match_candidate_to_job c₁ j₁ cv jd = match_candidate_to_job c₂ j₂ cv jd := by
  simp only [match_candidate_to_job, h1, h2, h3, h4, h5, hj1, hj2]

/-- Witness for C10: two candidates agreeing on the five matching fields but
differing in name, vendor, experience and submission date; two jobs agreeing
on time zone and contract duration but differing in id, title, description
and budget. -/
theorem C10_witness :
    match_candidate_to_job
        ⟨1, 2, 1, "A", some "python", none, none, none, none, some 3, none, 0,
          none, none, none⟩
        ⟨2, "T", "python", "ist", "100", "contract"⟩ "r" "d"
      = match_candidate_to_job
        ⟨9, 2, 4, "B", some "python", none, none, none, none, some 30, none, 7,
          none, none, none⟩
        ⟨3, "U", "java", "ist", "900", "contract"⟩ "r" "d" :=
  C10_noninterference _ _ _ _ "r" "d" rfl rfl rfl rfl rfl rfl rfl

/-- The batch loop produces exactly one result slot per candidate. -/
theorem runAll_length (ex : String → String) (ok : Nat → Bool) :
    ∀ (cs : List Candidate) (db : DB), (runAll ex ok db cs).2.length = cs.length
  | [], _ => rfl
  | c :: t, db => by
    simp [runAll, runAll_length ex ok t]

/-- Successes and failures partition any result roster. -/
theorem countP_success_total (rs : List RunResult) :
    rs.countP RunResult.success + rs.countP (fun r => !r.success) = rs.length := by
  induction rs with
  | nil => rfl
  | cons a t ih =>
    cases ha : a.success <;> simp [List.countP_cons, ha] <;> omega

/-- C8: the batch run fails only when the job id does not resolve; with the
job present it succeeds — trivially with an empty roster when the job has no
candidates, and otherwise with one result slot per candidate produced by the
single-candidate path on the threaded store, with
`successful + failed = total = number of candidates`; moreover a failing
single-candidate run leaves the store untouched, so one candidate's failure
cannot alter the processing of its siblings. -/
theorem C8_batch_processing (ex : String → String) (ok : Nat → Bool)
    (db : DB) (jid : Nat) :
    (findJob db jid = none → (process_job_matches ex ok db jid).2.success = false)
    ∧ (findJob db jid ≠ none → (process_job_matches ex ok db jid).2.success = true)
    ∧ (∀ j, findJob db jid = some j →
        db.candidates.filter (fun c => c.job_id == jid) = [] →
        process_job_matches ex ok db jid
          = (db, .empty ("No candidates found for job " ++ toString jid) []))
    ∧ (∀ j cands, findJob db jid = some j →
        cands = db.candidates.filter (fun c => c.job_id == jid) → cands ≠ [] →
        (process_job_matches ex ok db jid).2
          = .ok jid j.title cands.length
              ((runAll ex ok db cands).2.countP RunResult.success)
              ((runAll ex ok db cands).2.countP (fun r => !r.success))
              (runAll ex ok db cands).2
        ∧ (runAll ex ok db cands).2.length = cands.length
        ∧ (runAll ex ok db cands).2.countP RunResult.success
            + (runAll ex ok db cands).2.countP (fun r => !r.success) = cands.length)
    ∧ (∀ (db₀ : DB) (c : Nat), (process_candidate_match ex ok db₀ c).2.success = false →
        (process_candidate_match ex ok db₀ c).1 = db₀) := by
  refine ⟨?_, ?_, ?_, ?_, ?_⟩
  · intro h
    simp [process_job_matches, h, JobRun.success]
  · intro h
    rcases hj : findJob db jid with _ | j
    · exact absurd hj h
    rcases hc : (db.candidates.filter (fun c => c.job_id == jid)).isEmpty with _ | _
    · simp [process_job_matches, hj, hc, JobRun.success]
    · simp [process_job_matches, hj, hc, JobRun.success]
  · intro j hj hc
    simp [process_job_matches, hj, hc]
  · intro j cands hj hc hne
    subst hc
    have hne' : (db.candidates.filter (fun c => c.job_id == jid)).isEmpty = false := by
      simpa [List.isEmpty_iff] using hne
    refine ⟨?_, runAll_length ex ok _ db, ?_⟩
    · simp [process_job_matches, hj, hne']
    · rw [countP_success_total]
      exact runAll_length ex ok _ db
  · intro db₀ c h
    rcases hc : findCand db₀ c with _ | cand
    · simp [process_candidate_match, hc]
    rcases hjb : findJob db₀ cand.job_id with _ | jb
    · simp [process_candidate_match, hc, hjb]
    rcases hok : ok c
    · simp [process_candidate_match, hc, hjb, hok]
    · exfalso
      rw [process_candidate_match] at h
      simp [hc, hjb, hok, RunResult.success] at h

/-- Witness for C8: a job with two blank candidates where the data-access
layer rejects the commit for candidate 22 — the batch still succeeds, with a
two-slot roster counting one success and one failure. -/
theorem C8_witness :
    (process_job_matches (fun _ => "") (fun c => c != 22) dbBatch 8).2.success = true
    ∧ (process_job_matches (fun _ => "") (fun c => c != 22) dbBatch 8).2.results.length = 2
    ∧ (process_job_matches (fun _ => "") (fun c => c != 22) dbBatch 8).2.results.countP
        RunResult.success = 1
    ∧ (process_job_matches (fun _ => "") (fun c => c != 22) dbBatch 8).2.results.countP
        (fun r => !r.success) = 1 := by
  have h := C8_batch_processing (fun _ => "") (fun c => c != 22) dbBatch 8
  have h4 := h.2.2.2.1 jobEmpty (dbBatch.candidates.filter (fun c => c.job_id == 8))
    (by decide) rfl (by decide)
  refine ⟨h.2.1 (by decide), ?_, ?_, ?_⟩ <;> rw [h4.1] <;> simp only [JobRun.results] <;> decide

/-- C2 (amended): when the scorer reaches its per-keyword loop, a job
keyword with no exact case-insensitive hit among the candidate keywords is
accepted exactly when the fuzzy partial ratio between the keyword and the
raw `cv_text` argument alone reaches 80 — and on every one of the five
dimensions `match_candidate_to_job` passes the résumé text as that
argument, not the declared field concatenated with it (the declared field
enters only the keyword-extraction side). -/
theorem C2_fuzzy_against_resume_text (cvK jdK : List String) (cvT jdT : String)
    (k : String) (h1 : jdK ≠ []) (h2 : cvK ≠ [] ∨ cvT ≠ "") (hk : k ∈ jdK)
    (hex : (cvK.map pyLowerS).contains (pyLowerS k) = false) :
    (k ∉ (calculate_field_score cvK jdK cvT jdT).2 ↔
        80 ≤ fuzzPartial (pyLower k.data) (pyLower cvT.data))
    ∧ (∀ (c : Candidate) (j : Job) (cv jd : String),
        (match_candidate_to_job c j cv jd).mismatches Dim.hard_skills
          = (calculate_field_score
              (cvKeywords c.hard_skills cv HARD_SKILLS_KEYWORDS)
              (extract_keywords_from_text jd HARD_SKILLS_KEYWORDS) cv jd).2
        ∧ (match_candidate_to_job c j cv jd).mismatches Dim.soft_skills
          = (calculate_field_score
              (cvKeywords c.soft_skills cv SOFT_SKILLS_KEYWORDS)
              (extract_keywords_from_text jd SOFT_SKILLS_KEYWORDS) cv jd).2
        ∧ (match_candidate_to_job c j cv jd).mismatches Dim.certifications
          = (calculate_field_score
              (cvKeywords c.certifications cv CERTIFICATION_KEYWORDS)
              (extract_keywords_from_text jd CERTIFICATION_KEYWORDS) cv jd).2
        ∧ (match_candidate_to_job c j cv jd).mismatches Dim.time_zone
          = (calculate_field_score
              (cvKeywords c.time_zone_alignment cv TIME_ZONE_KEYWORDS)
              (extract_keywords_from_text (j.time_zone ++ " " ++ jd)
                TIME_ZONE_KEYWORDS) cv jd).2
        ∧ (match_candidate_to_job c j cv jd).mismatches Dim.contract_duration
          = (calculate_field_score
              (cvKeywords c.contract_duration_willingness cv
                CONTRACT_DURATION_KEYWORDS)
              (extract_keywords_from_text (j.contract_duration ++ " " ++ jd)
                CONTRACT_DURATION_KEYWORDS) cv jd).2) := by
  constructor
  · have hjd : jdK.isEmpty = false := by
      simpa [List.isEmpty_iff] using h1
    have hcv : (cvK.isEmpty && cvT == "") = false := by
      rcases h2 with h | h
      · simp [List.isEmpty_iff, h]
      · simp [h]
    have hmem : pyLowerS k ∉ cvK.map pyLowerS := by
      simpa using hex
    have hkh : keywordHit cvK cvT k
        = decide (80 ≤ fuzzPartial (pyLower k.data) (pyLower cvT.data)) := by
      rw [keywordHit, hex, Bool.false_or]
    simp only [calculate_field_score, hjd, hcv, Bool.false_eq_true, if_false,
      List.partition_eq_filter_filter]
    simp [List.mem_filter, hk, Function.comp, hkh]
  · intro c j cv jd
    exact ⟨rfl, rfl, rfl, rfl, rfl⟩

/-- Witness for C2's amended statement: with candidate keywords empty but a
non-empty résumé text, the missing verdict for `python` is exactly the
failure of the fuzzy ratio against that résumé text. -/
theorem C2_witness :
    "python" ∉ (calculate_field_score [] ["python"] "zzz" "").2 ↔
      80 ≤ fuzzPartial (pyLower "python".data) (pyLower "zzz".data) :=
  (C2_fuzzy_against_resume_text [] ["python"] "zzz" "" "python"
    (by decide) (Or.inr (by decide)) (by decide) (by decide)).1

unseal Rat.add Rat.mul Rat.inv Rat.sub in
/-- Counterexample to C2 as stated: for the hard-skills dimension the
candidate declares `pythonic` and the résumé text is `zzz`.  The fuzzy ratio
between the job keyword `python` and the declared-field-plus-résumé text is
100 ≥ 80, so under the claim the keyword would count as matched; the code
computes the ratio against the résumé text alone and leaves `python`
missing with a dimension score of 0. -/
theorem C2_counterexample :
    80 ≤ fuzzPartial (pyLower "python".data)
        (pyLower (pyOr candPy.hard_skills ++ " " ++ "zzz").data)
    ∧ (match_candidate_to_job candPy jobPy "zzz" (extract_jd_text jobPy)).mismatches
        Dim.hard_skills = ["python"]
    ∧ (match_candidate_to_job candPy jobPy "zzz" (extract_jd_text jobPy)).field_scores
        Dim.hard_skills = 0 := by
  refine ⟨by decide, by decide, ?_⟩
  have h : (match_candidate_to_job candPy jobPy "zzz" (extract_jd_text jobPy)).field_scores
      Dim.hard_skills = ((0 : ℚ) / 1) * 100 := by decide
  rw [h]
  norm_num

/-- A string of length zero is the empty string. -/
theorem str_of_length_zero (s : String) (h : s.length = 0) : s = "" := by
  cases s with
  | mk data =>
    cases data with
    | nil => rfl
    | cons a t => simp [String.length] at h

/-- Joining a list whose head is a non-empty string is non-empty. -/
theorem joinSep_cons_ne (sep a : String) (as : List String) (ha : a ≠ "") :
    joinSep sep (a :: as) ≠ "" := by
  cases as with
  | nil => simpa [joinSep] using ha
  | cons b bs =>
    intro h
    have hl := congrArg String.length h
    simp only [joinSep, String.length_append] at hl
    have hz : "".length = 0 := rfl
    rw [hz] at hl
    have h0 : a.length = 0 := by omega
    exact ha (str_of_length_zero a h0)

/-- Every synthesized mismatch fragment is non-empty (it starts with the
title-cased dimension name). -/
theorem mismatch_part_ne (d : Dim) (x : List String) :
    dimTitle d ++ ": Missing " ++ joinSep ", " x ≠ "" := by
  intro h
  have hl := congrArg String.length h
  simp only [String.length_append] at hl
  have hz : "".length = 0 := rfl
  rw [hz] at hl
  have h0 : (dimTitle d).length = 0 := by omega
  revert h0
  cases d <;> decide

/-- Summary synthesis in `aggregate`: the summary is non-empty exactly on
rejection, and a rejection with no weak-and-missing dimension gets the fixed
fallback sentence. -/
theorem aggregate_summary (S : Dim → ℚ) (M : Dim → List String) :
    ((aggregate S M).mismatch_summary ≠ "" ↔ (aggregate S M).status = "Rejected")
    ∧ ((aggregate S M).status = "Rejected" →
        (∀ d ∈ dims, ¬(M d ≠ [] ∧ S d < 70)) →
        (aggregate S M).mismatch_summary = fallbackSummary) := by
  by_cases h : 80 ≤ overallScore S
  · have hs : (aggregate S M).status = "Shortlisted" := by
      simp [aggregate, h]
    have hm : (aggregate S M).mismatch_summary = "" := by
      simp [aggregate, h, not_lt.mpr h]
    rw [hs, hm]
    constructor
    · simp only [ne_eq, not_true_eq_false, false_iff]
      decide
    · intro hc
      exact absurd hc (by decide)
  · have hlt : overallScore S < 80 := lt_of_not_le h
    have hs : (aggregate S M).status = "Rejected" := by
      simp [aggregate, h]
    rw [hs]
    have hsum : (aggregate S M).mismatch_summary
        = (if ((dims.filter (weakDim S M)).map
              (fun d => dimTitle d ++ ": Missing " ++ joinSep ", " (M d))).isEmpty
           then fallbackSummary
           else joinSep "; " ((dims.filter (weakDim S M)).map
              (fun d => dimTitle d ++ ": Missing " ++ joinSep ", " (M d)))) := by
      simp [aggregate, hlt]
    constructor
    · rw [hsum]
      simp only [iff_true]
      rcases hfil : dims.filter (weakDim S M) with _ | ⟨d, ds⟩
      · simp [hfil]
        decide
      · simp only [hfil, List.map_cons, List.isEmpty_cons, Bool.false_eq_true, if_false]
        exact joinSep_cons_ne _ _ _ (mismatch_part_ne d (M d))
    · intro _ hweak
      have hfil : dims.filter (weakDim S M) = [] := by
        rw [List.filter_eq_nil_iff]
        intro d hd
        have := hweak d hd
        simp only [weakDim, Bool.and_eq_true, Bool.not_eq_true', List.isEmpty_eq_false,
          decide_eq_true_eq]
        intro hcon
        exact this ⟨by simpa [List.isEmpty_iff] using hcon.1, by simpa using hcon.2⟩
      rw [hsum, hfil]
      rfl

/-- Updating the row with a given id and an id-preserving function commutes
with the lookup. -/
theorem find_update_comm (cs : List Candidate) (cid : Nat) (f : Candidate → Candidate)
    (hf : ∀ c, (f c).id = c.id) :
    (cs.map (fun c => if c.id == cid then f c else c)).find? (fun c => c.id == cid)
      = (cs.find? (fun c => c.id == cid)).map f := by
  induction cs with
  | nil => rfl
  | cons a t ih =>
    rcases ha : (a.id == cid) with _ | _
    · simpa [List.find?, ha] using ih
    · simp [List.find?, ha, hf a]

/-- Store-level form of `find_update_comm`. -/
theorem findCand_dbUpdate (db : DB) (cid : Nat) (f : Candidate → Candidate)
    (hf : ∀ c, (f c).id = c.id) :
    findCand (dbUpdateCand db cid f) cid = (findCand db cid).map f :=
  find_update_comm db.candidates cid f hf

/-- C3 (amended): after a successful run the persisted summary is the
engine's; that summary is non-empty exactly when the status is Rejected —
a Rejected run with no weak-and-missing dimension receives the fixed
non-empty fallback sentence rather than an empty summary. -/
theorem C3_summary_nonempty_iff_rejected (c : Candidate) (j : Job) (cv jd : String) :
    ((match_candidate_to_job c j cv jd).mismatch_summary ≠ ""
        ↔ (match_candidate_to_job c j cv jd).status = "Rejected")
    ∧ ((match_candidate_to_job c j cv jd).status = "Rejected" →
        (∀ d ∈ dims, ¬((match_candidate_to_job c j cv jd).mismatches d ≠ []
            ∧ (match_candidate_to_job c j cv jd).field_scores d < 70)) →
        (match_candidate_to_job c j cv jd).mismatch_summary = fallbackSummary)
    ∧ (∀ (ex : String → String) (ok : Nat → Bool) (db : DB) (cid : Nat)
        (cand : Candidate) (job : Job),
        findCand db cid = some cand → findJob db cand.job_id = some job →
        ok cid = true →
        findCand (process_candidate_match ex ok db cid).1 cid
          = some (updateMatchFields cand (serviceMatch ex cand job).match_score
              (serviceMatch ex cand job).status
              (serviceMatch ex cand job).mismatch_summary)) := by
  obtain ⟨S, M, hSM⟩ : ∃ S M, match_candidate_to_job c j cv jd = aggregate S M :=
    ⟨_, _, rfl⟩
  refine ⟨?_, ?_, ?_⟩
  · rw [hSM]
    exact (aggregate_summary S M).1
  · rw [hSM]
    exact (aggregate_summary S M).2
  · intro ex ok db cid cand job h1 h2 h3
    have hres : (process_candidate_match ex ok db cid).1
        = dbUpdateCand db cid (fun c' => updateMatchFields c'
            (serviceMatch ex cand job).match_score (serviceMatch ex cand job).status
            (serviceMatch ex cand job).mismatch_summary) := by
      simp [process_candidate_match, h1, h2, h3]
    rw [hres, findCand_dbUpdate db cid
      (fun c' => updateMatchFields c' (serviceMatch ex cand job).match_score
        (serviceMatch ex cand job).status (serviceMatch ex cand job).mismatch_summary)
      (fun _ => rfl), h1]
    rfl

set_option maxRecDepth 1000000 in
unseal Rat.add Rat.mul Rat.inv Rat.sub in
/-- Witness for C3's amended statement: a job with no requirements
shortlists the blank candidate, and the iff forces an empty summary. -/
theorem C3_witness :
    (match_candidate_to_job candEmpty jobEmpty "" "").mismatch_summary = "" := by
  have h := (C3_summary_nonempty_iff_rejected candEmpty jobEmpty "" "").1
  have hs : (match_candidate_to_job candEmpty jobEmpty "" "").status = "Shortlisted" := by
    decide
  by_contra hne
  have hr := h.mp hne
  rw [hs] at hr
  exact absurd hr (by decide)

set_option maxRecDepth 1000000 in
unseal Rat.add Rat.mul Rat.inv Rat.sub in
/-- Counterexample to C3 as stated: every dimension of `candQuarter` against
`jobQuarter` scores 75 (≥ 70, so no dimension is weak-and-missing), the
overall is 75 < 80 (Rejected), the run succeeds — and the persisted summary
is the non-empty fallback sentence, where the claim requires it empty. -/
theorem C3_counterexample :
    (process_candidate_match (fun _ => "") (fun _ => true) dbQuarter 1).2.success = true
    ∧ findCand (process_candidate_match (fun _ => "") (fun _ => true) dbQuarter 1).1 1
        = some (updateMatchFields candQuarter 75 "Rejected" fallbackSummary)
    ∧ (∀ d ∈ dims,
        ¬((serviceMatch (fun _ => "") candQuarter jobQuarter).mismatches d ≠ []
          ∧ (serviceMatch (fun _ => "") candQuarter jobQuarter).field_scores d < 70)) := by
  decide

/-- Lower bound of `Rat.floor`, in ℚ. -/
theorem ratFloor_le (q : ℚ) : (Rat.floor q : ℚ) ≤ q :=
  Rat.le_floor.mp le_rfl

/-- Upper bound of `Rat.floor`, in ℚ. -/
theorem lt_ratFloor_add_one (q : ℚ) : q < (Rat.floor q : ℚ) + 1 := by
  by_contra h
  have h1 : ((Rat.floor q + 1 : ℤ) : ℚ) ≤ q := by
    push_cast
    linarith [not_lt.mp h]
  have := Rat.le_floor.mpr h1
  omega

/-- Python rounding of a non-negative rational is non-negative. -/
theorem roundHalfEven_nonneg (q : ℚ) (h : 0 ≤ q) : 0 ≤ roundHalfEven q := by
  have h1 := ratFloor_le q
  have h2 := lt_ratFloor_add_one q
  have hf : 0 ≤ Rat.floor q := by
    by_contra hneg
    push_neg at hneg
    have h3 : Rat.floor q + 1 ≤ 0 := by omega
    have h4 : ((Rat.floor q + 1 : ℤ) : ℚ) ≤ ((0 : ℤ) : ℚ) := by exact_mod_cast h3
    push_cast at h4
    linarith
  unfold roundHalfEven
  split_ifs <;> omega

/-- Python rounding respects an integer upper bound. -/
theorem roundHalfEven_le (q : ℚ) (n : ℤ) (h : q ≤ n) : roundHalfEven q ≤ n := by
  have h1 := ratFloor_le q
  have hfle : Rat.floor q ≤ n := Rat.le_floor.mpr (h1.trans h)
  unfold roundHalfEven
  split_ifs with hc1 hc2 hc3
  · omega
  all_goals
    have hq : (Rat.floor q : ℚ) + 1/2 ≤ q := by linarith [not_lt.mp hc1]
  all_goals
    have hfn : Rat.floor q < n := by
      rcases lt_or_eq_of_le hfle with hl | he
      · exact hl
      · exfalso
        have hcast : ((Rat.floor q : ℤ) : ℚ) = (n : ℚ) := by exact_mod_cast he
        linarith
  all_goals omega

/-- Rounding via `round(x, 2)` stays within [0, 100] for x within [0, 100]. -/
theorem round2_bounds (q : ℚ) (h0 : 0 ≤ q) (h1 : q ≤ 100) :
    0 ≤ round2 q ∧ round2 q ≤ 100 := by
  have ha : 0 ≤ roundHalfEven (q * 100) := roundHalfEven_nonneg _ (by linarith)
  have hb : roundHalfEven (q * 100) ≤ (10000 : ℤ) := by
    apply roundHalfEven_le
    push_cast
    linarith
  constructor
  · unfold round2
    apply div_nonneg _ (by norm_num)
    exact_mod_cast ha
  · unfold round2
    rw [div_le_iff₀ (by norm_num : (0:ℚ) < 100)]
    calc ((roundHalfEven (q * 100) : ℤ) : ℚ) ≤ ((10000 : ℤ) : ℚ) := by exact_mod_cast hb
    _ = 100 * 100 := by norm_num

/-- The Field Scorer's score is always within [0, 100]. -/
theorem field_score_bounds (cvK jdK : List String) (cvT jdT : String) :
    0 ≤ (calculate_field_score cvK jdK cvT jdT).1
    ∧ (calculate_field_score cvK jdK cvT jdT).1 ≤ 100 := by
  unfold calculate_field_score
  rcases h1 : jdK.isEmpty with _ | _
  · rcases h2 : (cvK.isEmpty && cvT == "") with _ | _
    · simp only [Bool.false_eq_true, if_false, List.partition_eq_filter_filter]
      have hlen : 0 < jdK.length := by
        cases jdK with
        | nil => simp at h1
        | cons a t => simp
      have hle : (jdK.filter (keywordHit cvK cvT)).length ≤ jdK.length :=
        List.length_filter_le _ _
      have hq : (0:ℚ) < (jdK.length : ℚ) := by exact_mod_cast hlen
      constructor
      · positivity
      · rw [mul_comm, ← mul_div_assoc, mul_comm]
        rw [div_le_iff₀ hq]
        have : ((jdK.filter (keywordHit cvK cvT)).length : ℚ) ≤ (jdK.length : ℚ) := by
          exact_mod_cast hle
        nlinarith
    · simp
  · simp

/-- Every dimension score produced by `match_candidate_to_job` is within
[0, 100]. -/
theorem match_field_scores_bounds (c : Candidate) (j : Job) (cv jd : String)
    (d : Dim) :
    0 ≤ (match_candidate_to_job c j cv jd).field_scores d
    ∧ (match_candidate_to_job c j cv jd).field_scores d ≤ 100 := by
  cases d <;> exact field_score_bounds _ _ _ _

/-- The weighted overall of scores within [0, 100] is within [0, 100]. -/
theorem overall_bounds (S : Dim → ℚ) (hb : ∀ d, 0 ≤ S d ∧ S d ≤ 100) :
    0 ≤ overallScore S ∧ overallScore S ≤ 100 := by
  have hexp : overallScore S
      = S .hard_skills * FIELD_WEIGHTS .hard_skills
        + S .soft_skills * FIELD_WEIGHTS .soft_skills
        + S .certifications * FIELD_WEIGHTS .certifications
        + S .time_zone * FIELD_WEIGHTS .time_zone
        + S .contract_duration * FIELD_WEIGHTS .contract_duration := by
    simp only [overallScore, dims, List.foldl]
    ring
  have b1 := hb .hard_skills
  have b2 := hb .soft_skills
  have b3 := hb .certifications
  have b4 := hb .time_zone
  have b5 := hb .contract_duration
  rw [hexp]
  simp only [FIELD_WEIGHTS]
  constructor
  · nlinarith [b1.1, b2.1, b3.1, b4.1, b5.1]
  · nlinarith [b1.2, b2.2, b3.2, b4.2, b5.2]

/-- Status of the aggregate against the unrounded overall. -/
theorem aggregate_status_iff (S : Dim → ℚ) (M : Dim → List String) :
    (aggregate S M).status = "Shortlisted" ↔ 80 ≤ overallScore S := by
  simp only [aggregate]
  split_ifs with h
  · simp [h]
  · simp only [h, iff_false]
    decide

/-- C4 (amended): after a successful run the persisted `match_score` is
within [0, 100], but the persisted status corresponds to the *unrounded*
overall reaching 80 — when the unrounded overall falls in [79.995, 80) the
persisted rounded score is 80.0 while the status is Rejected, so the iff
against the persisted score itself does not hold. -/
theorem C4_persisted_bounds_and_threshold (ex : String → String) (ok : Nat → Bool)
    (db : DB) (cid : Nat) (cand : Candidate) (job : Job)
    (h1 : findCand db cid = some cand) (h2 : findJob db cand.job_id = some job)
    (h3 : ok cid = true) :
    ∀ c', findCand (process_candidate_match ex ok db cid).1 cid = some c' →
      ∃ s, c'.match_score = some s ∧ 0 ≤ s ∧ s ≤ 100
        ∧ (c'.status = some "Shortlisted"
            ↔ 80 ≤ overallScore ((serviceMatch ex cand job).field_scores)) := by
  intro c' hc'
  have hres : (process_candidate_match ex ok db cid).1
      = dbUpdateCand db cid (fun c'' => updateMatchFields c''
          (serviceMatch ex cand job).match_score (serviceMatch ex cand job).status
          (serviceMatch ex cand job).mismatch_summary) := by
    simp [process_candidate_match, h1, h2, h3]
  rw [hres, findCand_dbUpdate db cid
      (fun c'' => updateMatchFields c'' (serviceMatch ex cand job).match_score
        (serviceMatch ex cand job).status (serviceMatch ex cand job).mismatch_summary)
      (fun _ => rfl), h1] at hc'
  have hc'' := Option.some_injective _ hc'.symm
  subst hc''
  simp only []
  obtain ⟨S, M, hSM⟩ : ∃ S M, serviceMatch ex cand job = aggregate S M := ⟨_, _, rfl⟩
  have hb : ∀ d, 0 ≤ S d ∧ S d ≤ 100 := by
    intro d
    have := match_field_scores_bounds cand job
      (serviceCvText ex cand) (extract_jd_text job) d
    rw [show match_candidate_to_job cand job (serviceCvText ex cand) (extract_jd_text job)
        = serviceMatch ex cand job from rfl, hSM] at this
    exact this
  have hov := overall_bounds S hb
  have hrb := round2_bounds (overallScore S) hov.1 hov.2
  refine ⟨(serviceMatch ex cand job).match_score, rfl, ?_, ?_, ?_⟩
  · rw [hSM]
    exact hrb.1
  · rw [hSM]
    exact hrb.2
  · have hst : (updateMatchFields cand (serviceMatch ex cand job).match_score
        (serviceMatch ex cand job).status (serviceMatch ex cand job).mismatch_summary).status
        = some ((serviceMatch ex cand job).status) := rfl
    rw [hst, hSM]
    constructor
    · intro hs
      exact (aggregate_status_iff S M).mp (Option.some_injective _ hs)
    · intro hov80
      exact congrArg some ((aggregate_status_iff S M).mpr hov80)

set_option maxRecDepth 1000000 in
unseal Rat.add Rat.mul Rat.inv Rat.sub in
/-- Witness for C4's amended statement at the no-requirement job: the
persisted row carries score 100 within bounds and Shortlisted status
matching the unrounded overall. -/
theorem C4_witness :
    ∃ s, (updateMatchFields candEmpty 100 "Shortlisted" "").match_score = some s
      ∧ 0 ≤ s ∧ s ≤ 100
      ∧ ((updateMatchFields candEmpty 100 "Shortlisted" "").status = some "Shortlisted"
          ↔ 80 ≤ overallScore ((serviceMatch (fun _ => "") candEmpty jobEmpty).field_scores)) :=
  C4_persisted_bounds_and_threshold (fun _ => "") (fun _ => true) dbEmpty 7
    candEmpty jobEmpty (by decide) (by decide) rfl
    (updateMatchFields candEmpty 100 "Shortlisted" "") (by decide)

set_option maxRecDepth 4000000 in
unseal Rat.add Rat.mul Rat.inv Rat.sub in
/-- Counterexample to C4 as stated: against `jobWindow`, `candWindow` scores
5/7, 2/3, vacuous, 9/10 and 10/11 on the five dimensions, so the unrounded
overall is 18479/231 ≈ 79.9957 < 80 and the run persists status Rejected —
yet the persisted 2-decimal `match_score` is exactly 80.0, violating
`status = Shortlisted ↔ match_score ≥ 80.0` on the persisted fields. -/
theorem C4_counterexample :
    (process_candidate_match (fun _ => "") (fun _ => true) dbWindow 3).2.success = true
    ∧ findCand (process_candidate_match (fun _ => "") (fun _ => true) dbWindow 3).1 3
        = some (updateMatchFields candWindow 80 "Rejected" "Soft Skills: Missing teamwork")
    ∧ ((80 : ℚ) ≤ 80) := by
  refine ⟨by decide, by decide, by norm_num⟩

/-- Word boundaries of an embedded occurrence, for patterns that start and
end with word characters: the `\b` before the occurrence holds exactly when
the preceding context ends in a non-word character (or is empty), and the
`\b` after it holds exactly when the following context starts with a
non-word character (or is empty). -/
theorem boundary_decomp (pre kl post : List Char) (c cl : Char) (ks : List Char)
    (hk : kl = c :: ks) (hc : isWordChar c = true)
    (hcl : kl.getLast? = some cl) (hcl' : isWordChar cl = true) :
    (boundaryAt (pre ++ (kl ++ post)) pre.length = true ↔
      (∀ cp, pre.getLast? = some cp → isWordChar cp = false))
    ∧ (boundaryAt (pre ++ (kl ++ post)) (pre.length + kl.length) = true ↔
      (∀ cp, post.head? = some cp → isWordChar cp = false)) := by
  have hklen : 0 < kl.length := by simp [hk]
  have hget0 : (pre ++ (kl ++ post))[pre.length]? = some c := by
    rw [List.getElem?_append_right (le_refl pre.length), Nat.sub_self]
    simp [hk]
  have hw0 : wordAt (pre ++ (kl ++ post)) pre.length = true := by
    simp [wordAt, hget0, hc]
  have hgetL : (pre ++ (kl ++ post))[pre.length + kl.length - 1]? = some cl := by
    rw [List.getElem?_append_right (by omega : pre.length ≤ pre.length + kl.length - 1),
      show pre.length + kl.length - 1 - pre.length = kl.length - 1 by omega,
      List.getElem?_append_left (by omega : kl.length - 1 < kl.length),
      ← List.getLast?_eq_getElem?]
    exact hcl
  have hwL : wordAt (pre ++ (kl ++ post)) (pre.length + kl.length - 1) = true := by
    simp [wordAt, hgetL, hcl']
  have hgetR : (pre ++ (kl ++ post))[pre.length + kl.length]? = post.head? := by
    rw [List.getElem?_append_right (by omega : pre.length ≤ pre.length + kl.length),
      show pre.length + kl.length - pre.length = kl.length by omega,
      List.getElem?_append_right (le_refl kl.length), Nat.sub_self]
    exact (List.head?_eq_getElem? post).symm
  constructor
  · rw [boundaryAt, hw0]
    cases hpre : pre with
    | nil =>
      simp
    | cons p ps =>
      have hne : (p :: ps).length ≠ 0 := by simp
      have hlast := List.getLast?_eq_getLast (p :: ps) (by simp)
      have hgetp0 : ((p :: ps) ++ (kl ++ post))[(p :: ps).length - 1]?
          = some ((p :: ps).getLast (by simp)) := by
        rw [List.getElem?_append_left (by simp : (p :: ps).length - 1 < (p :: ps).length),
          ← List.getLast?_eq_getElem?]
        exact hlast
      have hgetp : (p :: (ps ++ (kl ++ post)))[ps.length]?
          = some ((p :: ps).getLast (by simp)) := by
        have h' := hgetp0
        rwa [List.cons_append, show (p :: ps).length - 1 = ps.length by simp] at h'
      have hwp : wordAt ((p :: ps) ++ (kl ++ post)) ((p :: ps).length - 1)
          = isWordChar ((p :: ps).getLast (by simp)) := by
        simp [wordAt, hgetp]
      rw [if_neg hne, hwp]
      constructor
      · intro hb cp hcp
        rw [hlast] at hcp
        have hcpe : (p :: ps).getLast (by simp) = cp := Option.some_injective _ hcp
        rw [← hcpe]
        rcases hw : isWordChar ((p :: ps).getLast (by simp)) with _ | _
        · rfl
        · rw [hw] at hb
          exact absurd hb (by decide)
      · intro hall
        have := hall ((p :: ps).getLast (by simp)) hlast
        rw [this]
        decide
  · rw [boundaryAt, if_neg (by omega : ¬ pre.length + kl.length = 0),
      show pre.length + kl.length - 1 = pre.length + kl.length - 1 from rfl, hwL]
    have hwR : wordAt (pre ++ (kl ++ post)) (pre.length + kl.length)
        = match post.head? with
          | some cp => isWordChar cp
          | none => false := by
      rw [wordAt, List.get?_eq_getElem?, hgetR]
    rw [hwR]
    cases hpost : post.head? with
    | none =>
      simp
    | some cp =>
      constructor
      · intro hb cq hcq
        have hcpq : cp = cq := Option.some_injective _ hcq
        subst hcpq
        rcases hw : isWordChar cp with _ | _
        · rfl
        · simp [hw] at hb
      · intro hall
        have h1 := hall cp rfl
        simp [h1]

/-- The regex search `\b`+keyword+`\b` succeeds exactly on an embedded
occurrence flanked by non-word context, provided the keyword starts and
ends with word characters. -/
theorem hasWordMatch_iff (t kl : List Char) (c cl : Char) (ks : List Char)
    (hk : kl = c :: ks) (hc : isWordChar c = true)
    (hcl : kl.getLast? = some cl) (hcl' : isWordChar cl = true) :
    hasWordMatch t kl = true ↔
      ∃ pre post, t = pre ++ (kl ++ post)
        ∧ (∀ cp, pre.getLast? = some cp → isWordChar cp = false)
        ∧ (∀ cp, post.head? = some cp → isWordChar cp = false) := by
  have hklen : 0 < kl.length := by simp [hk]
  constructor
  · intro h
    rw [hasWordMatch, List.any_eq_true] at h
    obtain ⟨i, hi, hp⟩ := h
    rw [List.mem_range] at hi
    simp only [matchesAt, Bool.and_eq_true, beq_iff_eq] at hp
    obtain ⟨⟨hb1, hm⟩, hb2⟩ := hp
    have hlen : i + kl.length ≤ t.length := by
      have hml := congrArg List.length hm
      simp only [List.length_take, List.length_drop] at hml
      omega
    have hpl : (t.take i).length = i := by
      rw [List.length_take]
      omega
    have hdec : t = t.take i ++ (kl ++ t.drop (i + kl.length)) := by
      conv_lhs => rw [← List.take_append_drop i t]
      congr 1
      conv_lhs => rw [← List.take_append_drop kl.length (t.drop i)]
      rw [hm, List.drop_drop]
    refine ⟨t.take i, t.drop (i + kl.length), hdec, ?_, ?_⟩
    · have hbd := (boundary_decomp (t.take i) kl (t.drop (i + kl.length))
        c cl ks hk hc hcl hcl').1
      rw [← hdec, hpl] at hbd
      exact hbd.mp hb1
    · have hbd := (boundary_decomp (t.take i) kl (t.drop (i + kl.length))
        c cl ks hk hc hcl hcl').2
      rw [← hdec, hpl] at hbd
      exact hbd.mp hb2
  · rintro ⟨pre, post, hdec, hpre, hpost⟩
    rw [hasWordMatch, List.any_eq_true]
    refine ⟨pre.length, ?_, ?_⟩
    · rw [List.mem_range, hdec]
      simp only [List.length_append]
      omega
    · simp only [matchesAt, Bool.and_eq_true, beq_iff_eq]
      refine ⟨⟨?_, ?_⟩, ?_⟩
      · rw [hdec]
        exact ((boundary_decomp pre kl post c cl ks hk hc hcl hcl').1).mpr hpre
      · rw [hdec, List.drop_left, List.take_left]
      · rw [hdec]
        exact ((boundary_decomp pre kl post c cl ks hk hc hcl hcl').2).mpr hpost

/-- C6: keyword extraction yields the empty list on empty text, a
subsequence of the vocabulary (vocabulary order, each term at most once for
duplicate-free vocabularies), and — for vocabulary phrases that start and
end with word characters — contains a term exactly when the lowered text
embeds the lowered term flanked by non-word context on both sides, i.e. a
case-insensitive whole-word occurrence, never a substring of a larger word. -/
theorem C6_whole_word_extraction (text : String) (vocab : List String) :
    (text = "" → extract_keywords_from_text text vocab = [])
    ∧ (extract_keywords_from_text text vocab).Sublist vocab
    ∧ (vocab.Nodup → (extract_keywords_from_text text vocab).Nodup)
    ∧ (∀ k ∈ vocab, ∀ (c cl : Char) (ks : List Char),
        pyLower k.data = c :: ks → isWordChar c = true →
        (pyLower k.data).getLast? = some cl → isWordChar cl = true →
        (k ∈ extract_keywords_from_text text vocab ↔
          ∃ pre post, pyLower text.data = pre ++ (pyLower k.data ++ post)
            ∧ (∀ cp, pre.getLast? = some cp → isWordChar cp = false)
            ∧ (∀ cp, post.head? = some cp → isWordChar cp = false))) := by
  have hsub : (extract_keywords_from_text text vocab).Sublist vocab := by
    rw [extract_keywords_from_text]
    split_ifs
    · exact List.nil_sublist _
    · exact List.filter_sublist _
  refine ⟨?_, hsub, fun hn => hsub.nodup hn, ?_⟩
  · intro h
    simp [extract_keywords_from_text, h]
  · intro k hkv c cl ks hk hc hcl hcl'
    by_cases ht : text = ""
    · subst ht
      simp only [extract_keywords_from_text, if_pos rfl]
      constructor
      · intro h
        exact absurd h (List.not_mem_nil k)
      · rintro ⟨pre, post, hdec, -, -⟩
        exfalso
        have hlen : (0 : Nat) = (pre ++ (pyLower k.data ++ post)).length :=
          congrArg List.length hdec
        simp only [List.length_append, hk, List.length_cons] at hlen
        omega
    · have hne : (text == "") = false := by
        simp [ht]
      rw [extract_keywords_from_text, hne]
      simp only [Bool.false_eq_true, if_false, List.mem_filter, hkv, true_and]
      exact hasWordMatch_iff (pyLower text.data) (pyLower k.data) c cl ks hk hc hcl hcl'

/-- Witness for C6: empty text yields nothing; `javascript` is extracted
from `I know JavaScript` (case-insensitively, via the characterization with
an explicit decomposition) while `java` is not, although it occurs as a
substring; the result is duplicate-free. -/
theorem C6_witness :
    extract_keywords_from_text "" HARD_SKILLS_KEYWORDS = []
    ∧ "javascript" ∈ extract_keywords_from_text "I know JavaScript" ["java", "javascript"]
    ∧ "java" ∉ extract_keywords_from_text "I know JavaScript" ["java", "javascript"]
    ∧ (extract_keywords_from_text "I know JavaScript" ["java", "javascript"]).Nodup := by
  have h := C6_whole_word_extraction "I know JavaScript" ["java", "javascript"]
  refine ⟨(C6_whole_word_extraction "" HARD_SKILLS_KEYWORDS).1 rfl, ?_, by decide,
    h.2.2.1 (by decide)⟩
  refine (h.2.2.2 "javascript" (by decide) 'j' 't' "avascript".data (by decide)
    (by decide) (by decide) (by decide)).mpr ⟨"i know ".data, [], by decide, ?_, ?_⟩
  · intro cp hcp
    have hg : ("i know ".data).getLast? = some ' ' := by decide
    rw [hg] at hcp
    have : ' ' = cp := Option.some_injective _ hcp
    rw [← this]
    decide
  · intro cp hcp
    simp at hcp

/-- Appending past a guaranteed non-space last character commutes with the
right strip. -/
theorem pyStripR_append (X' R : List Char) (x : Char) (hx : pyIsSpace x = false) :
    pyStripR ((X' ++ [x]) ++ R) = (X' ++ [x]) ++ pyStripR R := by
  unfold pyStripR
  rw [List.reverse_append, List.dropWhile_append]
  split_ifs with h
  · have hxrev : (X' ++ [x]).reverse = x :: X'.reverse := by simp
    rw [hxrev, List.dropWhile_cons_of_neg (by simp [hx])]
    have hre : R.reverse.dropWhile pyIsSpace = [] := by
      simpa [List.isEmpty_iff] using h
    rw [hre]
    simp
  · rw [List.reverse_append]
    simp

/-- Concatenation preserves a non-space head. -/
theorem headNS_append (l1 l2 : List Char)
    (h1 : l1 = [] ∨ ∃ c r, l1 = c :: r ∧ pyIsSpace c = false)
    (h2 : l2 = [] ∨ ∃ c r, l2 = c :: r ∧ pyIsSpace c = false) :
    l1 ++ l2 = [] ∨ ∃ c r, l1 ++ l2 = c :: r ∧ pyIsSpace c = false := by
  rcases h1 with h1 | ⟨c, r, hcr, hc⟩
  · subst h1
    simpa using h2
  · subst hcr
    exact Or.inr ⟨c, r ++ l2, by simp, hc⟩

/-- Concatenation preserves a trailing newline. -/
theorem endNL_append (l1 l2 : List Char)
    (h1 : l1 = [] ∨ ∃ u, l1 = u ++ ['\n'])
    (h2 : l2 = [] ∨ ∃ u, l2 = u ++ ['\n']) :
    l1 ++ l2 = [] ∨ ∃ u, l1 ++ l2 = u ++ ['\n'] := by
  rcases h2 with h2 | ⟨u, hu⟩
  · subst h2
    simpa using h1
  · subst hu
    exact Or.inr ⟨l1 ++ u, by simp⟩

/-- Shape of one optional labelled line of `extract_jd_text`: empty, or a
line starting with the label's non-space first character and ending in the
newline. -/
theorem seg_shape (lbl v : String) (c0 : Char) (r0 : List Char)
    (hl : lbl.data = c0 :: r0) (hc : pyIsSpace c0 = false)
    (cond : Prop) [Decidable cond] :
    ((if cond then lbl ++ v ++ "\n" else "").data = []
      ∨ ∃ c r, (if cond then lbl ++ v ++ "\n" else "").data = c :: r
          ∧ pyIsSpace c = false)
    ∧ ((if cond then lbl ++ v ++ "\n" else "").data = []
      ∨ ∃ u, (if cond then lbl ++ v ++ "\n" else "").data = u ++ ['\n']) := by
  split_ifs with h
  · constructor
    · right
      refine ⟨c0, r0 ++ (v.data ++ ['\n']), ?_, hc⟩
      simp [String.data_append, hl, show "\n".data = ['\n'] from rfl]
    · right
      refine ⟨lbl.data ++ v.data, ?_⟩
      simp [String.data_append, show "\n".data = ['\n'] from rfl]
  · exact ⟨Or.inl rfl, Or.inl rfl⟩

/-- Stripping the assembled JD text preserves the `Contract Duration:` label
verbatim: the leading strip is inert because the text starts with a label's
non-space character, and the trailing strip cannot cross the label's final
colon. -/
theorem strip_label_shape (A cd : List Char)
    (hA1 : A = [] ∨ ∃ c r, A = c :: r ∧ pyIsSpace c = false) :
    pyStripL (A ++ ("Contract Duration: ".data ++ (cd ++ ['\n'])))
      = (A ++ "Contract Duration:".data) ++ pyStripR (' ' :: (cd ++ ['\n'])) := by
  have hlead : (A ++ ("Contract Duration: ".data ++ (cd ++ ['\n']))).dropWhile pyIsSpace
      = A ++ ("Contract Duration: ".data ++ (cd ++ ['\n'])) := by
    rcases hA1 with h | ⟨c, r, hcr, hc⟩
    · subst h
      rw [List.nil_append]
      rw [show "Contract Duration: ".data ++ (cd ++ ['\n'])
          = 'C' :: ("ontract Duration: ".data ++ (cd ++ ['\n'])) from rfl]
      exact List.dropWhile_cons_of_neg (by decide)
    · subst hcr
      rw [List.cons_append]
      exact List.dropWhile_cons_of_neg (by simp [hc])
  rw [pyStripL, hlead]
  have hshape : A ++ ("Contract Duration: ".data ++ (cd ++ ['\n']))
      = ((A ++ "Contract Duration".data) ++ [':']) ++ (' ' :: (cd ++ ['\n'])) := by
    rw [show ("Contract Duration: ".data : List Char)
        = "Contract Duration".data ++ [':'] ++ (' ' :: []) from by decide]
    simp [List.append_assoc]
  rw [hshape, pyStripR_append (A ++ "Contract Duration".data) _ ':' (by decide)]
  congr 1
  rw [List.append_assoc]
  congr 1

/-- C9: whenever a job's `contract_duration` is non-empty, `extract_jd_text`
keeps a literal `Contract Duration:` label in the JD text, `contract` is a
contract-duration vocabulary term, so the JD-side keyword list of the
contract-duration dimension always contains `contract` and is never empty —
the vacuous empty-requirement rule cannot fire for that dimension. -/
theorem C9_contract_requirement_never_vacuous (j : Job)
    (hcd : j.contract_duration ≠ "") :
    "contract" ∈ CONTRACT_DURATION_KEYWORDS
    ∧ (∃ u v, (extract_jd_text j).data = u ++ ("Contract Duration:".data ++ v))
    ∧ "contract" ∈ extract_keywords_from_text
        (j.contract_duration ++ " " ++ extract_jd_text j) CONTRACT_DURATION_KEYWORDS
    ∧ extract_keywords_from_text
        (j.contract_duration ++ " " ++ extract_jd_text j) CONTRACT_DURATION_KEYWORDS
      ≠ [] := by
  have h5 : (if j.contract_duration ≠ ""
      then "Contract Duration: " ++ j.contract_duration ++ "\n" else "")
      = "Contract Duration: " ++ j.contract_duration ++ "\n" := if_pos hcd
  have hS1 := seg_shape "Title: " j.title 'T' "itle: ".data rfl (by decide)
    (j.title ≠ "")
  have hS2 := seg_shape "Description: " j.description 'D' "escription: ".data rfl
    (by decide) (j.description ≠ "")
  have hS3 := seg_shape "Time Zone: " j.time_zone 'T' "ime Zone: ".data rfl
    (by decide) (j.time_zone ≠ "")
  have hS4 := seg_shape "Budget Range: " j.budget_range 'B' "udget Range: ".data rfl
    (by decide) (j.budget_range ≠ "")
  have hA1 := headNS_append _ _ hS1.1 (headNS_append _ _ hS2.1
    (headNS_append _ _ hS3.1 hS4.1))
  have hA2 := endNL_append _ _ hS1.2 (endNL_append _ _ hS2.2
    (endNL_append _ _ hS3.2 hS4.2))
  set A : List Char :=
    (if j.title ≠ "" then "Title: " ++ j.title ++ "\n" else "").data
      ++ ((if j.description ≠ "" then "Description: " ++ j.description ++ "\n"
            else "").data
        ++ ((if j.time_zone ≠ "" then "Time Zone: " ++ j.time_zone ++ "\n"
              else "").data
          ++ (if j.budget_range ≠ "" then "Budget Range: " ++ j.budget_range ++ "\n"
              else "").data)) with hAdef
  have hD : (extract_jd_text j).data
      = (A ++ "Contract Duration:".data)
        ++ pyStripR (' ' :: (j.contract_duration.data ++ ['\n'])) := by
    rw [show (extract_jd_text j).data
        = pyStripL (((((if j.title ≠ "" then "Title: " ++ j.title ++ "\n" else "")
            ++ (if j.description ≠ "" then "Description: " ++ j.description ++ "\n"
                else ""))
            ++ (if j.time_zone ≠ "" then "Time Zone: " ++ j.time_zone ++ "\n" else ""))
            ++ (if j.budget_range ≠ "" then "Budget Range: " ++ j.budget_range ++ "\n"
                else ""))
            ++ (if j.contract_duration ≠ ""
                then "Contract Duration: " ++ j.contract_duration ++ "\n" else "")).data
        from rfl]
    rw [h5]
    rw [show (((((if j.title ≠ "" then "Title: " ++ j.title ++ "\n" else "")
          ++ (if j.description ≠ "" then "Description: " ++ j.description ++ "\n"
              else ""))
          ++ (if j.time_zone ≠ "" then "Time Zone: " ++ j.time_zone ++ "\n" else ""))
          ++ (if j.budget_range ≠ "" then "Budget Range: " ++ j.budget_range ++ "\n"
              else ""))
          ++ ("Contract Duration: " ++ j.contract_duration ++ "\n")).data
        = A ++ ("Contract Duration: ".data ++ (j.contract_duration.data ++ ['\n']))
        from by
          simp only [String.data_append, hAdef, List.append_assoc]]
    exact strip_label_shape A j.contract_duration.data hA1
  refine ⟨by decide,
    ⟨A, pyStripR (' ' :: (j.contract_duration.data ++ ['\n'])),
      by rw [hD, List.append_assoc]⟩, ?_⟩
  have htd : (j.contract_duration ++ " " ++ extract_jd_text j).data
      = (j.contract_duration.data ++ [' ']) ++ (extract_jd_text j).data := by
    simp [String.data_append, show " ".data = [' '] from rfl]
  have htne : (j.contract_duration ++ " " ++ extract_jd_text j == "") = false := by
    rw [beq_eq_false_iff_ne]
    intro hcon
    have hc2 := congrArg String.data hcon
    rw [htd] at hc2
    simp at hc2
  have hword : hasWordMatch
      (pyLower (j.contract_duration ++ " " ++ extract_jd_text j).data)
      (pyLower "contract".data) = true := by
    apply (hasWordMatch_iff _ _ 'c' 't' "ontract".data (by decide) (by decide)
      (by decide) (by decide)).mpr
    refine ⟨pyLower j.contract_duration.data ++ ([' '] ++ pyLower A),
      ' ' :: ("duration:".data
        ++ pyLower (pyStripR (' ' :: (j.contract_duration.data ++ ['\n'])))),
      ?_, ?_, ?_⟩
    · rw [htd, hD]
      simp only [pyLower, List.map_append]
      rw [show List.map Char.toLower "Contract Duration:".data
          = "contract".data ++ (' ' :: "duration:".data) from by decide,
        show List.map Char.toLower [' '] = [' '] from rfl,
        show List.map Char.toLower "contract".data = "contract".data from by decide]
      simp only [List.append_assoc, List.cons_append]
    · intro cp hcp
      rcases hA2 with hA | ⟨u, hu⟩
      · rw [hA] at hcp
        simp only [pyLower, List.map_nil, List.append_nil] at hcp
        rw [List.getLast?_concat] at hcp
        have : ' ' = cp := Option.some_injective _ hcp
        rw [← this]
        decide
      · rw [hu] at hcp
        simp only [pyLower, List.map_append] at hcp
        rw [show List.map Char.toLower ['\n'] = ['\n'] from rfl] at hcp
        rw [show List.map Char.toLower j.contract_duration.data
              ++ ([' '] ++ (List.map Char.toLower u ++ ['\n']))
            = (List.map Char.toLower j.contract_duration.data
              ++ ([' '] ++ List.map Char.toLower u)) ++ ['\n'] from by
          simp [List.append_assoc]] at hcp
        rw [List.getLast?_concat] at hcp
        have : '\n' = cp := Option.some_injective _ hcp
        rw [← this]
        decide
    · intro cp hcp
      rw [List.head?_cons] at hcp
      have : ' ' = cp := Option.some_injective _ hcp
      rw [← this]
      decide
  have hmem : "contract" ∈ extract_keywords_from_text
      (j.contract_duration ++ " " ++ extract_jd_text j) CONTRACT_DURATION_KEYWORDS := by
    rw [extract_keywords_from_text]
    simp only [htne, Bool.false_eq_true, if_false]
    exact List.mem_filter.mpr ⟨by decide, hword⟩
  exact ⟨hmem, List.ne_nil_of_mem hmem⟩

/-- Witness for C9 at a concrete job with a non-empty contract duration. -/
theorem C9_witness :
    "contract" ∈ extract_keywords_from_text
      (jobQuarter.contract_duration ++ " " ++ extract_jd_text jobQuarter)
      CONTRACT_DURATION_KEYWORDS :=
  (C9_contract_requirement_never_vacuous jobQuarter (by decide)).2.2.1
